import Mathlib

/-!
Shallow embedding of `cloudssh.py` (memoryleak/cloudssh).

Time is modelled as integer epoch seconds; the several `datetime.now()`
calls made inside a single operation are modelled by one `now` parameter
(the sub-second drift between them does not affect any verified property
at whole-second granularity).  Python's `timedelta.seconds` — the sub-day
seconds component of a duration — is `delta % 86400` with Euclidean
remainder, matching Python's normalisation of `timedelta` (days may be
negative, seconds always in `[0, 86400)`).

Fallible I/O (`pickle.load` on a bad file) is modelled with `Except`;
the persisted TTL file is a `TTLFileContent` value.  The whoosh index is
modelled as a list of stored documents; the whoosh engine itself is an
external library, so its behaviour at the call sites (unique-key replace
on `update_document`, the parse/rank/limit behaviour of `search`) is
modelled from the spec where noted.
-/

namespace CloudSSH

/-- Content of the persisted TTL state file (`cache_dir/ttl`): absent,
present but empty, present but not a readable pickled datetime, or a
valid pickled timestamp (epoch seconds). -/
inductive TTLFileContent where
  | missing
  | empty
  | corrupt
  | valid (t : Int)
deriving DecidableEq

/-- Reading the TTL file with `pickle.load` (src line 99): succeeds only
on a valid pickled timestamp; a missing file, an empty file, and a
corrupt non-empty file all raise. -/
def pickleLoad : TTLFileContent → Except String Int
  | .valid t => .ok t
  | .corrupt => .error "UnpicklingError"
  | .missing => .error "FileNotFoundError"
  | .empty => .error "EOFError"

/-- `IndexProcessor.should_index` (src lines 88–110).  If the TTL file is
missing or empty (line 91) a sentinel `now - (ttl + 1)` is pickled into it
(lines 93–95).  The file is then loaded (lines 97–99), `delta` is the
elapsed duration (line 100), and the gate compares `delta.seconds` — the
sub-day seconds component, `delta % 86400` — with the configured ttl
(line 102).  On a true result the current time is persisted (lines
106–108) before returning.  Returns the flag and the final file content. -/
def should_index (ttl : Nat) (now : Int) (file : TTLFileContent) :
    Except String (Bool × TTLFileContent) :=
  let file1 := match file with
    | .missing => TTLFileContent.valid (now - ((ttl : Int) + 1))
    | .empty => TTLFileContent.valid (now - ((ttl : Int) + 1))
    | f => f
  match pickleLoad file1 with
  | .error e => .error e
  | .ok last_indexing_time =>
    let delta := now - last_indexing_time
    let si : Bool := decide (delta % 86400 > (ttl : Int))
    let file2 := if si then TTLFileContent.valid now else file1
    .ok (si, file2)

/-- A document stored in the whoosh index, with the four schema fields of
`instance_schema` (src lines 79–84). -/
structure IndexedDocument where
  private_ip_address : String
  name : String
  tags : String
  created_at : Int
deriving DecidableEq

/-- Modelled from the spec: whoosh `writer.update_document` with
`private_ip_address` declared `unique=True` in the schema — "replaces any
existing document with the same unique key (`address`) — full overwrite
semantics, not field-level merge".  The whoosh library itself is not part
of this repository's sources. -/
def update_document (ix : List IndexedDocument) (d : IndexedDocument) :
    List IndexedDocument :=
  ix.filter (fun e => decide (e.private_ip_address ≠ d.private_ip_address)) ++ [d]

/-- `ServerInstance` (src lines 52–63): a container for server data. -/
structure ServerInstance where
  name : String
  ip_address : String
  fields : List String
deriving DecidableEq

/-- The document written for one instance by `update_index`'s loop (src
lines 137–142): tags are the space-join of the instance's fields, and
`created_at` is the write time. -/
def mk_document (now : Int) (inst : ServerInstance) : IndexedDocument :=
  ⟨inst.ip_address, inst.name, " ".intercalate inst.fields, now⟩

/-- Persisted state owned by the `IndexProcessor`: the TTL file and the
on-disk index contents. -/
structure ProcState where
  ttl_file : TTLFileContent
  indexed : List IndexedDocument
deriving DecidableEq

/-- Result of one `update_index` call: the final persisted state, how many
times the staleness gate was consulted, and how many writer commits ran. -/
structure UpdateResult where
  state : ProcState
  gate_checks : Nat
  commits : Nat
deriving DecidableEq

/-- `IndexProcessor.update_index` (src lines 125–144): consult the gate
once; if it reports not-due, return immediately (line 133) touching
neither the index nor a writer; otherwise update one document per
instance and commit once. -/
def update_index (ttl : Nat) (now : Int) (instances : List ServerInstance)
    (s : ProcState) : Except String UpdateResult :=
  match should_index ttl now s.ttl_file with
  | .error e => .error e
  | .ok (false, f) => .ok ⟨⟨f, s.indexed⟩, 1, 0⟩
  | .ok (true, f) =>
    .ok ⟨⟨f, instances.foldl (fun ix inst => update_document ix (mk_document now inst)) s.indexed⟩,
         1, 1⟩

/-- Result of parsing a search term: either the empty parse or a
disjunction of terms over the `name` and `tags` fields. -/
inductive ParsedQuery where
  | null
  | terms (ws : List String)
deriving DecidableEq

/-- A term is blank when every character is whitespace (so the empty
term is blank); such a term parses to nothing. -/
def is_blank (s : String) : Bool :=
  s.data.all (fun c => c.isWhitespace)

/-- Modelled from the spec: `MultifieldParser(["name", "tags"]).parse`
(src lines 153–154); the whoosh parser is not part of this repository's
sources.  An empty or whitespace-only term yields the empty parse
("return zero results for an effectively-empty parsed query rather than
erroring"); a term the engine's grammar rejects raises `QueryParseError`
("a syntactically invalid query term surfaces as `QueryParseError`");
the engine's syntactic-validity test is the parameter `wellFormed`. -/
def parse_query (wellFormed : String → Bool) (term : String) :
    Except String ParsedQuery :=
  if is_blank term then .ok ParsedQuery.null
  else if wellFormed term then
    .ok (ParsedQuery.terms ((term.splitOn " ").filter (fun w => decide (w ≠ ""))))
  else .error "QueryParseError"

/-- Modelled from the spec: a parsed query matches a document when some
term occurs in its `name` or `tags` field ("term matches in either field
count"); the empty parse matches nothing. -/
def doc_matches : ParsedQuery → IndexedDocument → Bool
  | .null, _ => false
  | .terms ws, d =>
    ws.any (fun w => (d.name.splitOn " ").contains w || (d.tags.splitOn " ").contains w)

/-- Ranking order used by `search` via `sortedby=[ScoreFacet, FieldFacet
name]` (src lines 156–159): higher relevance score first, ties broken by
ascending `name`. -/
def rankLE (score : IndexedDocument → Int) (a b : IndexedDocument) : Prop :=
  score b < score a ∨ (score a = score b ∧ a.name ≤ b.name)

instance (score : IndexedDocument → Int) : DecidableRel (rankLE score) := fun a b => by
  unfold rankLE
  infer_instance

instance (score : IndexedDocument → Int) : IsTotal IndexedDocument (rankLE score) := by
  constructor
  intro a b
  rcases lt_trichotomy (score a) (score b) with h | h | h
  · exact Or.inr (Or.inl h)
  · rcases le_total a.name b.name with h' | h'
    · exact Or.inl (Or.inr ⟨h, h'⟩)
    · exact Or.inr (Or.inr ⟨h.symm, h'⟩)
  · exact Or.inl (Or.inl h)

instance (score : IndexedDocument → Int) : IsTrans IndexedDocument (rankLE score) := by
  constructor
  intro a b c hab hbc
  rcases hab with h1 | ⟨h1, h1'⟩ <;> rcases hbc with h2 | ⟨h2, h2'⟩
  · exact Or.inl (lt_trans h2 h1)
  · exact Or.inl (h2 ▸ h1)
  · exact Or.inl (h1 ▸ h2)
  · exact Or.inr ⟨h1.trans h2, le_trans h1' h2'⟩

/-- Modelled from the spec: executing a parsed query against the stored
documents with the arguments passed at src line 159 — matching documents
ranked by score descending then `name` ascending, truncated by
`limit=15`.  The engine-assigned relevance scores are the parameter
`score`. -/
def execute_search (score : IndexedDocument → Int) (q : ParsedQuery)
    (ix : List IndexedDocument) : List IndexedDocument :=
  (List.insertionSort (rankLE score) (ix.filter (doc_matches q))).take 15

/-- `IndexProcessor.search` (src lines 146–161): parse the term over the
`name` and `tags` fields, then run the engine search with `limit=15` and
the score/name sort. -/
def search (wellFormed : String → Bool) (score : IndexedDocument → Int)
    (ix : List IndexedDocument) (term : String) :
    Except String (List IndexedDocument) :=
  match parse_query wellFormed term with
  | .error e => .error e
  | .ok q => .ok (execute_search score q ix)

/-- Two-digit zero-padded rendering of a number below 100, as `strftime`
produces for hour, minute and second fields. -/
def two_digits (n : Nat) : String :=
  if n < 10 then "0" ++ toString n else toString n

/-- Rendering of `strftime("%H:%M:%S")` (src line 249) on an epoch-second
timestamp. -/
def hhmmss (t : Int) : String :=
  let s := (t % 86400).toNat
  two_digits (s / 3600) ++ ":" ++ two_digits (s % 3600 / 60) ++ ":" ++ two_digits (s % 60)

/-- Python `str.ljust`: pad with spaces on the right to the given width. -/
def ljust (s : String) (w : Nat) : String :=
  s ++ String.mk (List.replicate (w - s.length) ' ')

/-- One prompt choice line built at src lines 246–250:
address padded to 15, name padded to 40, write time, `.strip()`-ed. -/
def format_choice (d : IndexedDocument) : String :=
  (ljust d.private_ip_address 15 ++ " | " ++ ljust d.name 40 ++ " | "
    ++ hhmmss d.created_at).trim

/-- The module-toplevel search invocation (src lines 236–251): call
`processor.search` — with no surrounding exception handler — and build
the prompt choice lines from the results.  Any error raised by `search`
propagates out of the toplevel. -/
def toplevel_search (wellFormed : String → Bool) (score : IndexedDocument → Int)
    (ix : List IndexedDocument) (term : String) : Except String (List String) :=
  match search wellFormed score ix term with
  | .error e => .error e
  | .ok results => .ok (results.map format_choice)

/-- One EC2 tag as returned by `describe_instances`. -/
structure Ec2Tag where
  key : String
  value : String
deriving DecidableEq

/-- One EC2 instance from a reservation: its tag list and the value of
the configured address field. -/
structure Ec2Instance where
  tags : List Ec2Tag
  address : String
deriving DecidableEq

/-- The inner tag loop of `AwsProvider.lookup` (src lines 200–205) as it
affects `instance_name`: the value of the last tag whose key is `Name`,
or the empty string. -/
def instance_name (tags : List Ec2Tag) : String :=
  tags.foldl (fun n t => if t.key = "Name" then t.value else n) ""

/-- The tag values an instance appends to the shared `instance_fields`
list (src line 205), in tag order. -/
def tag_values (tags : List Ec2Tag) : List String :=
  tags.map Ec2Tag.value

/-- The per-reservation instance loop of `AwsProvider.lookup` (src lines
199–211) with the shared mutable `instance_fields` list made explicit:
given the list accumulated so far, it returns the list accumulated after
this reservation together with the `(name, address)` data of each
`ServerInstance` appended.  The `fields` slot of each appended
`ServerInstance` is a reference to the one shared list, so it is filled
in only once the whole call is done. -/
def lookup_loop : List Ec2Instance → List String → List String × List (String × String)
  | [], fields => (fields, [])
  | i :: rest, fields =>
    let out := lookup_loop rest (fields ++ tag_values i.tags)
    (out.fst, (instance_name i.tags, i.address) :: out.snd)

/-- The reservation loop of `AwsProvider.lookup` (src lines 198–211),
threading the one shared `instance_fields` list through every
reservation. -/
def lookup_reservations :
    List (List Ec2Instance) → List String → List String × List (String × String)
  | [], fields => (fields, [])
  | r :: rest, fields =>
    let a := lookup_loop r fields
    let b := lookup_reservations rest a.fst
    (b.fst, a.snd ++ b.snd)

/-- `AwsProvider.lookup` (src lines 182–214) on an already-fetched
`describe_instances` response.  `instance_fields` starts empty (line 189)
and is the same list object in every constructed `ServerInstance`
(line 209), so at return each `ServerInstance.fields` holds the tag
values accumulated across all instances of all reservations. -/
def lookup (resp : List (List Ec2Instance)) : List ServerInstance :=
  let out := lookup_reservations resp []
  out.snd.map (fun p => ⟨p.fst, p.snd, out.fst⟩)

/-- The tag values of every instance of one reservation, in order. -/
def flat_tags : List Ec2Instance → List String
  | [] => []
  | i :: rest => tag_values i.tags ++ flat_tags rest

/-- The tag values of every instance of every reservation, in order. -/
def flat_tags_resp : List (List Ec2Instance) → List String
  | [] => []
  | r :: rest => flat_tags r ++ flat_tags_resp rest

/-- A concrete `describe_instances` response with one reservation holding
two tagged instances, used as a witness input. -/
def sample_response : List (List Ec2Instance) :=
  [[Ec2Instance.mk [Ec2Tag.mk "Name" "web-1", Ec2Tag.mk "env" "prod"] "10.0.0.1",
    Ec2Instance.mk [Ec2Tag.mk "Name" "db-1", Ec2Tag.mk "env" "stage"] "10.0.0.2"]]

/-! Helper lemmas computing `should_index` on each file-content shape. -/

theorem should_index_valid_eq (ttl : Nat) (now t : Int) :
    should_index ttl now (TTLFileContent.valid t) =
      .ok (decide ((now - t) % 86400 > (ttl : Int)),
        if decide ((now - t) % 86400 > (ttl : Int)) = true then TTLFileContent.valid now
        else TTLFileContent.valid t) := rfl

theorem should_index_missing_eq (ttl : Nat) (now : Int) :
    should_index ttl now TTLFileContent.missing =
      .ok (decide ((now - (now - ((ttl : Int) + 1))) % 86400 > (ttl : Int)),
        if decide ((now - (now - ((ttl : Int) + 1))) % 86400 > (ttl : Int)) = true then
          TTLFileContent.valid now
        else TTLFileContent.valid (now - ((ttl : Int) + 1))) := rfl

theorem should_index_empty_eq (ttl : Nat) (now : Int) :
    should_index ttl now TTLFileContent.empty =
      .ok (decide ((now - (now - ((ttl : Int) + 1))) % 86400 > (ttl : Int)),
        if decide ((now - (now - ((ttl : Int) + 1))) % 86400 > (ttl : Int)) = true then
          TTLFileContent.valid now
        else TTLFileContent.valid (now - ((ttl : Int) + 1))) := rfl

theorem should_index_corrupt_eq (ttl : Nat) (now : Int) :
    should_index ttl now TTLFileContent.corrupt = .error "UnpicklingError" := rfl

/-- C1: for every persisted `last_refresh_at` timestamp `t` and every
configured `ttl ≥ 0`, the staleness gate returns true if and only if the
sub-day seconds component `(now - t) % 86400` of the elapsed duration is
strictly greater than `ttl` — it compares only that component, never the
total elapsed seconds, so an elapsed time over 24 hours wraps. -/
theorem gate_compares_subday_seconds (ttl : Nat) (now t : Int) :
    should_index ttl now (TTLFileContent.valid t) =
      .ok (decide ((now - t) % 86400 > (ttl : Int)),
        if (now - t) % 86400 > (ttl : Int) then TTLFileContent.valid now
        else TTLFileContent.valid t) := by
  rw [should_index_valid_eq]
  by_cases h : (now - t) % 86400 > (ttl : Int) <;> simp [h]

/-- C2 (amended): with no persisted RefreshState (missing or empty TTL
file), `should_index` treats `last_refresh_at` as `now - (ttl + 1)`, and
the first call returns true — and persists `now` — provided
`ttl + 1 < 86400`; for `ttl ≥ 86399` the sub-day wrap makes the sentinel
comparison fail, so the very first call returns false. -/
theorem gate_first_run (ttl : Nat) (now : Int) (h : (ttl : Int) + 1 < 86400) :
    should_index ttl now TTLFileContent.missing = .ok (true, TTLFileContent.valid now) ∧
    should_index ttl now TTLFileContent.empty = .ok (true, TTLFileContent.valid now) := by
  have hsub : now - (now - ((ttl : Int) + 1)) = (ttl : Int) + 1 := by ring
  have hmod : (now - (now - ((ttl : Int) + 1))) % 86400 = (ttl : Int) + 1 := by
    rw [hsub]
    exact Int.emod_eq_of_lt (by omega) h
  have hC : (now - (now - ((ttl : Int) + 1))) % 86400 > (ttl : Int) := by
    rw [hmod]; omega
  have hgt : decide ((now - (now - ((ttl : Int) + 1))) % 86400 > (ttl : Int)) = true :=
    decide_eq_true hC
  refine ⟨?_, ?_⟩
  · rw [should_index_missing_eq, hgt]; simp
  · rw [should_index_empty_eq, hgt]; simp

/-- Witness for C2's amended theorem at `ttl = 300`, `now = 1000`. -/
theorem gate_first_run_witness :
    (((300 : Nat) : Int) + 1 < 86400) ∧
    (should_index 300 1000 TTLFileContent.missing = .ok (true, TTLFileContent.valid 1000) ∧
     should_index 300 1000 TTLFileContent.empty = .ok (true, TTLFileContent.valid 1000)) :=
  ⟨by decide, gate_first_run 300 1000 (by decide)⟩

/-- Counterexample to C2 as stated: for `ttl = 86399` and a missing TTL
file, the sentinel elapsed duration is `86400` seconds, whose sub-day
seconds component is `0`, so the very first call returns false (and
leaves the sentinel, not `now`, persisted). -/
theorem gate_first_run_cex :
    should_index 86399 0 TTLFileContent.missing =
      .ok (false, TTLFileContent.valid (-86400)) := rfl

/-- C3: whenever `should_index` returns true it has persisted `now` as
the new `last_refresh_at` in the returned file state; whenever it returns
false on an existing persisted timestamp, that timestamp is left
unchanged. -/
theorem gate_persists_now_on_true (ttl : Nat) (now : Int) (file : TTLFileContent)
    (b : Bool) (file' : TTLFileContent)
    (h : should_index ttl now file = .ok (b, file')) :
    (b = true → file' = TTLFileContent.valid now) ∧
    (b = false → ∀ t : Int, file = TTLFileContent.valid t → file' = TTLFileContent.valid t) := by
  cases file with
  | corrupt =>
    rw [should_index_corrupt_eq] at h
    exact absurd h (by simp)
  | missing =>
    rw [should_index_missing_eq] at h
    simp only [Except.ok.injEq, Prod.mk.injEq] at h
    obtain ⟨hb, hf⟩ := h
    subst hf
    refine ⟨fun htrue => ?_, fun _ t ht => TTLFileContent.noConfusion ht⟩
    rw [if_pos (htrue ▸ hb)]
  | empty =>
    rw [should_index_empty_eq] at h
    simp only [Except.ok.injEq, Prod.mk.injEq] at h
    obtain ⟨hb, hf⟩ := h
    subst hf
    refine ⟨fun htrue => ?_, fun _ t ht => TTLFileContent.noConfusion ht⟩
    rw [if_pos (htrue ▸ hb)]
  | valid t0 =>
    rw [should_index_valid_eq] at h
    simp only [Except.ok.injEq, Prod.mk.injEq] at h
    obtain ⟨hb, hf⟩ := h
    subst hf
    refine ⟨fun htrue => ?_, fun hfalse t ht => ?_⟩
    · rw [if_pos (htrue ▸ hb)]
    · have ht' : t0 = t := by injection ht
      subst ht'
      have hd : decide ((now - t0) % 86400 > (ttl : Int)) = false := hfalse ▸ hb
      rw [if_neg (by simp [hd])]

/-- Witness for C3 at `ttl = 10`, `now = 100`, persisted timestamp `0`:
the gate fires and the returned file state holds `now`. -/
theorem gate_persists_now_on_true_witness :
    (should_index 10 100 (TTLFileContent.valid 0) = .ok (true, TTLFileContent.valid 100)) ∧
    ((true = true → TTLFileContent.valid (100 : Int) = TTLFileContent.valid 100) ∧
     (true = false → ∀ t : Int, TTLFileContent.valid (0 : Int) = TTLFileContent.valid t →
        TTLFileContent.valid (100 : Int) = TTLFileContent.valid t)) :=
  ⟨rfl, gate_persists_now_on_true 10 100 (TTLFileContent.valid 0) true
    (TTLFileContent.valid 100) rfl⟩

/-- C8 (amended): only a missing or empty TTL file is treated as absent
(the stale-sentinel fallback applies and the call succeeds); a TTL file
that exists with corrupt non-empty content is not tolerated — the
`pickle.load` failure propagates as an error instead of falling back. -/
theorem gate_corrupt_state_raises (ttl : Nat) (now : Int) :
    should_index ttl now TTLFileContent.corrupt = .error "UnpicklingError" ∧
    (∃ b f, should_index ttl now TTLFileContent.missing = Except.ok (b, f)) ∧
    (∃ b f, should_index ttl now TTLFileContent.empty = Except.ok (b, f)) :=
  ⟨should_index_corrupt_eq ttl now,
   ⟨_, _, should_index_missing_eq ttl now⟩,
   ⟨_, _, should_index_empty_eq ttl now⟩⟩

/-- Counterexample to C8 as stated: at `ttl = 300`, `now = 0` a corrupt
non-empty TTL file makes `should_index` raise, while an absent file makes
it succeed — the two are not treated the same. -/
theorem gate_corrupt_state_cex :
    should_index 300 0 TTLFileContent.corrupt = .error "UnpicklingError" ∧
    should_index 300 0 TTLFileContent.missing = .ok (true, TTLFileContent.valid 0) :=
  ⟨rfl, rfl⟩

/-- C4: a call to `update_index` while the staleness gate reports
not-due returns immediately: the stored documents are untouched, no
commit runs, and the gate's side-effect check ran exactly once. -/
theorem update_index_not_due (ttl : Nat) (now : Int) (instances : List ServerInstance)
    (s : ProcState) (f : TTLFileContent)
    (h : should_index ttl now s.ttl_file = .ok (false, f)) :
    update_index ttl now instances s = .ok ⟨⟨f, s.indexed⟩, 1, 0⟩ := by
  unfold update_index
  rw [h]

/-- Witness for C4: with `ttl = 10` and a refresh persisted 5 seconds
ago, `update_index` leaves the single stored document alone and commits
nothing. -/
theorem update_index_not_due_witness :
    (should_index 10 100 (ProcState.mk (TTLFileContent.valid 95)
        [IndexedDocument.mk "10.0.0.9" "x" "t" 0]).ttl_file =
      .ok (false, TTLFileContent.valid 95)) ∧
    update_index 10 100 [ServerInstance.mk "web-1" "10.0.0.1" ["prod"]]
        (ProcState.mk (TTLFileContent.valid 95) [IndexedDocument.mk "10.0.0.9" "x" "t" 0]) =
      .ok ⟨⟨TTLFileContent.valid 95, [IndexedDocument.mk "10.0.0.9" "x" "t" 0]⟩, 1, 0⟩ :=
  ⟨rfl, update_index_not_due 10 100 [ServerInstance.mk "web-1" "10.0.0.1" ["prod"]]
    (ProcState.mk (TTLFileContent.valid 95) [IndexedDocument.mk "10.0.0.9" "x" "t" 0])
    (TTLFileContent.valid 95) rfl⟩

/-! Helper lemmas about `update_document`'s unique-key invariant. -/

theorem update_document_addrs_nodup (ix : List IndexedDocument) (d : IndexedDocument)
    (h : (ix.map IndexedDocument.private_ip_address).Nodup) :
    ((update_document ix d).map IndexedDocument.private_ip_address).Nodup := by
  unfold update_document
  rw [List.map_append, List.nodup_append]
  refine ⟨List.Nodup.sublist ((List.filter_sublist ix).map _) h, by simp, ?_⟩
  intro a ha hb
  simp only [List.map_cons, List.map_nil, List.mem_singleton] at hb
  subst hb
  simp only [List.mem_map, List.mem_filter] at ha
  obtain ⟨e, ⟨_, hp⟩, he⟩ := ha
  exact of_decide_eq_true hp he

theorem update_document_addrs_subset (ix : List IndexedDocument) (d : IndexedDocument) :
    (update_document ix d).map IndexedDocument.private_ip_address ⊆
      ix.map IndexedDocument.private_ip_address ++ [d.private_ip_address] := by
  unfold update_document
  rw [List.map_append]
  intro a ha
  rw [List.mem_append] at ha ⊢
  rcases ha with h1 | h2
  · left
    simp only [List.mem_map, List.mem_filter] at h1 ⊢
    obtain ⟨e, ⟨he, _⟩, hea⟩ := h1
    exact ⟨e, he, hea⟩
  · right
    simpa using h2

theorem foldl_update_document_nodup (ds : List IndexedDocument) :
    ∀ ix : List IndexedDocument,
      (ix.map IndexedDocument.private_ip_address).Nodup →
      ((ds.foldl update_document ix).map IndexedDocument.private_ip_address).Nodup := by
  induction ds with
  | nil => intro ix h; simpa using h
  | cons d ds ih =>
    intro ix h
    rw [List.foldl_cons]
    exact ih _ (update_document_addrs_nodup ix d h)

theorem foldl_update_document_subset (ds : List IndexedDocument) :
    ∀ ix : List IndexedDocument,
      (ds.foldl update_document ix).map IndexedDocument.private_ip_address ⊆
        ix.map IndexedDocument.private_ip_address ++
          ds.map IndexedDocument.private_ip_address := by
  induction ds with
  | nil => intro ix; simp
  | cons d ds ih =>
    intro ix
    rw [List.foldl_cons]
    intro a ha
    rw [List.mem_append]
    rcases List.mem_append.mp (ih (update_document ix d) ha) with h1 | h2
    · rcases List.mem_append.mp (update_document_addrs_subset ix d h1) with h3 | h4
      · exact Or.inl h3
      · simp only [List.mem_singleton] at h4
        subst h4
        exact Or.inr (by simp)
    · exact Or.inr (by simp [List.mem_cons_of_mem _ h2])

/-- C5: upserting a record for one address twice leaves exactly one
document for that address, holding only the latest write's field values
(full replace, not merge); and an index built by upserts never holds more
documents than there are distinct addresses ever indexed. -/
theorem upsert_full_replace (ix : List IndexedDocument) (d d' : IndexedDocument)
    (h : d.private_ip_address = d'.private_ip_address) :
    (update_document (update_document ix d) d').filter
        (fun e => decide (e.private_ip_address = d.private_ip_address)) = [d'] ∧
    ∀ ds : List IndexedDocument,
      ((ds.foldl update_document []).map IndexedDocument.private_ip_address).Nodup ∧
      (ds.foldl update_document []).length ≤
        (ds.map IndexedDocument.private_ip_address).dedup.length := by
  constructor
  · rw [show update_document (update_document ix d) d' =
        (update_document ix d).filter
          (fun e => decide (e.private_ip_address ≠ d'.private_ip_address)) ++ [d'] from rfl]
    rw [List.filter_append]
    have h1 : ((update_document ix d).filter
        (fun e => decide (e.private_ip_address ≠ d'.private_ip_address))).filter
        (fun e => decide (e.private_ip_address = d.private_ip_address)) = [] := by
      rw [List.filter_eq_nil_iff]
      intro a ha
      rw [List.mem_filter] at ha
      have hq := of_decide_eq_true ha.2
      intro hp
      exact hq ((of_decide_eq_true hp).trans h)
    rw [h1]
    simp [h]
  · intro ds
    have hnd := foldl_update_document_nodup ds [] (by simp)
    refine ⟨hnd, ?_⟩
    have hsub : (ds.foldl update_document []).map IndexedDocument.private_ip_address ⊆
        (ds.map IndexedDocument.private_ip_address).dedup := by
      intro a ha
      have h2 := foldl_update_document_subset ds [] ha
      rw [List.mem_dedup]
      simpa using h2
    have h3 := (List.subperm_of_subset hnd hsub).length_le
    rwa [List.length_map] at h3

/-- Witness for C5: indexing address `10.0.0.1` as `web-1`/`prod web`
then as `web-2`/`db` leaves exactly the later document. -/
theorem upsert_full_replace_witness :
    ((IndexedDocument.mk "10.0.0.1" "web-1" "prod web" 0).private_ip_address =
      (IndexedDocument.mk "10.0.0.1" "web-2" "db" 1).private_ip_address) ∧
    ((update_document (update_document [] (IndexedDocument.mk "10.0.0.1" "web-1" "prod web" 0))
        (IndexedDocument.mk "10.0.0.1" "web-2" "db" 1)).filter
        (fun e => decide (e.private_ip_address =
          (IndexedDocument.mk "10.0.0.1" "web-1" "prod web" 0).private_ip_address)) =
      [IndexedDocument.mk "10.0.0.1" "web-2" "db" 1] ∧
     ∀ ds : List IndexedDocument,
      ((ds.foldl update_document []).map IndexedDocument.private_ip_address).Nodup ∧
      (ds.foldl update_document []).length ≤
        (ds.map IndexedDocument.private_ip_address).dedup.length) :=
  ⟨rfl, upsert_full_replace [] (IndexedDocument.mk "10.0.0.1" "web-1" "prod web" 0)
    (IndexedDocument.mk "10.0.0.1" "web-2" "db" 1) rfl⟩

/-- C6: for every search term and every index contents, a successful
`search` returns at most 15 results, ordered primarily by relevance
score descending with score ties broken by the `name` field ascending. -/
theorem search_limit_and_rank (wellFormed : String → Bool) (score : IndexedDocument → Int)
    (ix : List IndexedDocument) (term : String) (results : List IndexedDocument)
    (h : search wellFormed score ix term = .ok results) :
    results.length ≤ 15 ∧ List.Sorted (rankLE score) results := by
  unfold search at h
  cases hp : parse_query wellFormed term with
  | error e =>
    rw [hp] at h
    exact absurd h (by simp)
  | ok q =>
    rw [hp] at h
    simp only [Except.ok.injEq] at h
    subst h
    unfold execute_search
    constructor
    · rw [List.length_take]
      exact min_le_left _ _
    · exact List.Pairwise.sublist (List.take_sublist 15 _)
        (List.sorted_insertionSort (rankLE score) _)

/-- Witness for C6 on an empty index and the term `prod`. -/
theorem search_limit_and_rank_witness :
    (search (fun _ => true) (fun _ => 0) [] "prod" = .ok []) ∧
    (([] : List IndexedDocument).length ≤ 15 ∧
      List.Sorted (rankLE (fun _ => 0)) ([] : List IndexedDocument)) :=
  ⟨rfl, search_limit_and_rank (fun _ => true) (fun _ => 0) [] "prod" [] rfl⟩

/-- C7: calling `search` with an empty or whitespace-only term yields the
empty parse and returns an empty result list, raising no error. -/
theorem search_empty_term (wellFormed : String → Bool) (score : IndexedDocument → Int)
    (ix : List IndexedDocument) (term : String) (h : is_blank term = true) :
    search wellFormed score ix term = .ok [] := by
  have hp : parse_query wellFormed term = .ok ParsedQuery.null := by
    unfold parse_query
    rw [if_pos h]
  have hfn : doc_matches ParsedQuery.null = fun _ => false := by
    funext d
    rfl
  unfold search
  rw [hp]
  show Except.ok (execute_search score ParsedQuery.null ix) = Except.ok []
  unfold execute_search
  rw [hfn, List.filter_false]
  rfl

/-- Witness for C7: the empty term against a one-document index. -/
theorem search_empty_term_witness :
    (is_blank "" = true) ∧
    search (fun _ => true) (fun _ => 0)
      [IndexedDocument.mk "10.0.0.1" "web-1" "prod" 0] "" = .ok [] :=
  ⟨rfl, search_empty_term (fun _ => true) (fun _ => 0)
    [IndexedDocument.mk "10.0.0.1" "web-1" "prod" 0] "" rfl⟩

/-- C9 (amended): a syntactically invalid query term surfaces from the
parse as a `QueryParseError`, but the module toplevel invokes `search`
with no exception handler, so the error propagates out of the toplevel
— a malformed search term that fails to parse is fatal to the run, not
handled as zero results or a re-prompt. -/
theorem toplevel_parse_error_fatal (wellFormed : String → Bool)
    (score : IndexedDocument → Int) (ix : List IndexedDocument) (term : String)
    (e : String) (h : parse_query wellFormed term = .error e) :
    toplevel_search wellFormed score ix term = .error e := by
  unfold toplevel_search search
  rw [h]

/-- Witness for C9's amended theorem: an engine that rejects the term
`web` makes the toplevel invocation propagate `QueryParseError`. -/
theorem toplevel_parse_error_fatal_witness :
    (parse_query (fun _ => false) "web" = .error "QueryParseError") ∧
    toplevel_search (fun _ => false) (fun _ => 0) [] "web" = .error "QueryParseError" :=
  ⟨rfl, toplevel_parse_error_fatal (fun _ => false) (fun _ => 0) [] "web"
    "QueryParseError" rfl⟩

/-- Counterexample to C9 as stated: with a one-document index and an
engine whose grammar rejects the term `web`, the toplevel search
invocation returns the propagated `QueryParseError` rather than an
empty result — the caller installs no handler. -/
theorem toplevel_parse_error_cex :
    toplevel_search (fun _ => false) (fun _ => 0)
      [IndexedDocument.mk "10.0.0.1" "web-1" "prod" 0] "web" =
      .error "QueryParseError" := rfl

/-! Helper lemmas about the shared `instance_fields` list of
`AwsProvider.lookup`. -/

theorem lookup_loop_fst (l : List Ec2Instance) :
    ∀ fields : List String, (lookup_loop l fields).fst = fields ++ flat_tags l := by
  induction l with
  | nil => intro fields; simp [lookup_loop, flat_tags]
  | cons i rest ih =>
    intro fields
    simp [lookup_loop, flat_tags, ih, List.append_assoc]

theorem lookup_reservations_fst (resp : List (List Ec2Instance)) :
    ∀ fields : List String,
      (lookup_reservations resp fields).fst = fields ++ flat_tags_resp resp := by
  induction resp with
  | nil => intro fields; simp [lookup_reservations, flat_tags_resp]
  | cons r rest ih =>
    intro fields
    simp [lookup_reservations, flat_tags_resp, ih, lookup_loop_fst, List.append_assoc]

theorem mem_flat_tags : ∀ (l : List Ec2Instance) (i : Ec2Instance), i ∈ l →
    ∀ v ∈ tag_values i.tags, v ∈ flat_tags l := by
  intro l
  induction l with
  | nil => intro i hi; cases hi
  | cons j rest ih =>
    intro i hi v hv
    simp only [flat_tags, List.mem_append]
    rcases List.mem_cons.mp hi with h1 | h2
    · subst h1
      exact Or.inl hv
    · exact Or.inr (ih i h2 v hv)

theorem mem_flat_tags_resp : ∀ (resp : List (List Ec2Instance)) (r : List Ec2Instance),
    r ∈ resp → ∀ i ∈ r, ∀ v ∈ tag_values i.tags, v ∈ flat_tags_resp resp := by
  intro resp
  induction resp with
  | nil => intro r hr; cases hr
  | cons r0 rest ih =>
    intro r hr i hi v hv
    simp only [flat_tags_resp, List.mem_append]
    rcases List.mem_cons.mp hr with h1 | h2
    · rw [h1] at hi
      exact Or.inl (mem_flat_tags r0 i hi v hv)
    · exact Or.inr (ih r h2 i hi v hv)

/-- C10: every `ServerInstance` returned by one `AwsProvider.lookup`
call carries the one shared `instance_fields` list, which at return has
accumulated the tag values of every instance of every reservation of the
call — so each record's searchable fields include the tags of every
other host returned by that lookup, not only its own. -/
theorem lookup_shared_fields (resp : List (List Ec2Instance)) (si : ServerInstance)
    (h : si ∈ lookup resp) :
    si.fields = flat_tags_resp resp ∧
    ∀ r ∈ resp, ∀ i ∈ r, ∀ v ∈ tag_values i.tags, v ∈ si.fields := by
  simp only [lookup, List.mem_map] at h
  obtain ⟨p, _, hp⟩ := h
  have hf : si.fields = flat_tags_resp resp := by
    rw [← hp]
    simpa using lookup_reservations_fst resp []
  refine ⟨hf, ?_⟩
  intro r hr i hi v hv
  rw [hf]
  exact mem_flat_tags_resp resp r hr i hi v hv

/-- Witness for C10 on `sample_response`: the first returned record's
fields are the tag values of both hosts, so `db-1`'s tags are searchable
under `web-1`'s record. -/
theorem lookup_shared_fields_witness :
    (ServerInstance.mk "web-1" "10.0.0.1" ["web-1", "prod", "db-1", "stage"] ∈
      lookup sample_response) ∧
    ((ServerInstance.mk "web-1" "10.0.0.1" ["web-1", "prod", "db-1", "stage"]).fields =
      flat_tags_resp sample_response ∧
     ∀ r ∈ sample_response, ∀ i ∈ r, ∀ v ∈ tag_values i.tags,
       v ∈ (ServerInstance.mk "web-1" "10.0.0.1" ["web-1", "prod", "db-1", "stage"]).fields) :=
  ⟨by decide, lookup_shared_fields sample_response
    (ServerInstance.mk "web-1" "10.0.0.1" ["web-1", "prod", "db-1", "stage"]) (by decide)⟩

end CloudSSH
